import Mathlib

/-!
Verification of the artifact resolver and safe-loading logic of the
football-predictor dashboard (`app.py`).

The embedding models:
* `find_file_simple` — multi-location file resolution (app.py lines 44-58);
* `load_model_safe` — extension dispatch with joblib/pickle/cloudpickle
  fallback and TensorFlow guard (lines 60-96);
* `load_json_safe` — resolution plus JSON parsing (lines 98-108);
* the module-level model loading (lines 115-145);
* the match-outcome and league-champion threshold decisions
  (lines 944, 987, 1034).

Filesystem states are functions from path strings to optional entries
(file with content, or directory).  A file's content is abstracted by the
outcome each deserializer would produce on its bytes (`none` = raises).
-/

namespace FootballApp

/-- A filesystem entry: a regular file with content `c`, or a directory.
`os.path.exists` is true for both. -/
inductive Entry (α : Type) where
  | file (c : α)
  | dir

/-- `pathlib` join: `Path(a) / b` drops an empty part, otherwise inserts a
separator.  (Our inputs never start with an absolute `b`.) -/
def pjoin (a b : String) : String :=
  if b = "" then a else a ++ "/" ++ b

/-- A small JSON value type, for the metadata/threshold files. -/
inductive Json where
  | null
  | bool (v : Bool)
  | num (q : ℚ)
  | str (s : String)
  | arr (xs : List Json)
  | obj (kvs : List (String × Json))

/-- Outcome of each deserializer on one file's byte stream; `none` means
that deserializer raises on these bytes.  Loaded model handles are
abstracted as naturals. -/
structure Content where
  joblib : Option ℕ
  pickle : Option ℕ
  cloudpickle : Option ℕ
  keras : Option ℕ
  json : Option Json

/-- A filesystem state: which paths exist and what they hold. -/
def FS : Type := String → Option (Entry Content)

/-- `os.path.exists`: true for files and directories; the empty path never
exists. -/
def osExists (fs : FS) (p : String) : Bool :=
  p ≠ "" && (fs p).isSome

/-- The ordered candidate list of `find_file_simple` (app.py lines 46-53):
bare name, base directory, its `models/` and `metadata/` subfolders, then
relative `models/` and `metadata/`. -/
def locations (base filename : String) : List String :=
  [ filename,
    pjoin base filename,
    pjoin (pjoin base "models") filename,
    pjoin (pjoin base "metadata") filename,
    pjoin "models" filename,
    pjoin "metadata" filename ]

/-- `find_file_simple` (app.py lines 44-58): return the first candidate
location that exists, else `None`. -/
def find_file_simple (base : String) (fs : FS) (filename : String) :
    Option String :=
  (locations base filename).find? (fun l => osExists fs l)

/-- Python `str.endswith`. -/
def endswith (s suffix : String) : Bool :=
  suffix.data.isSuffixOf s.data

/-- The deserialization strategies `load_model_safe` can invoke. -/
inductive Method where
  | joblib
  | pickle
  | cloudpickle
  | keras
deriving DecidableEq, Repr

/-- Apply one deserializer to the entry at path `p`: it succeeds only on a
regular file whose bytes that deserializer accepts; on a directory or a
missing path it raises (`none`). -/
def deser (fs : FS) (p : String) (sel : Content → Option ℕ) : Option ℕ :=
  match fs p with
  | some (Entry.file c) => sel c
  | _ => none

/-- The body of `load_model_safe` inside its outer `try` (app.py lines
62-93), instrumented with the list of deserialization methods attempted.
`Except.error t` is an exception escaping to the outer handler, carrying
the methods attempted before it was raised:
* missing file → `ok (none, [])` with a warning (lines 64-66);
* `.h5` → keras when TensorFlow is available (a keras exception escapes),
  otherwise a warning and `None` (lines 69-74);
* `.pkl`/`.joblib` → joblib, then pickle, then cloudpickle, each exception
  handled in place; `None` after all three raise (lines 75-91);
* any other extension → joblib, whose exception escapes (lines 92-93). -/
def loadBody (tfAvailable : Bool) (base : String) (fs : FS)
    (filename : String) : Except (List Method) (Option ℕ × List Method) :=
  match find_file_simple base fs filename with
  | none => Except.ok (none, [])
  | some p =>
    if endswith filename ".h5" then
      if tfAvailable then
        match deser fs p Content.keras with
        | some v => Except.ok (some v, [Method.keras])
        | none => Except.error [Method.keras]
      else
        Except.ok (none, [])
    else if endswith filename ".pkl" || endswith filename ".joblib" then
      Except.ok <|
        match deser fs p Content.joblib with
        | some v => (some v, [Method.joblib])
        | none =>
          match deser fs p Content.pickle with
          | some v => (some v, [Method.joblib, Method.pickle])
          | none =>
            match deser fs p Content.cloudpickle with
            | some v =>
                (some v, [Method.joblib, Method.pickle, Method.cloudpickle])
            | none =>
                (none, [Method.joblib, Method.pickle, Method.cloudpickle])
    else
      match deser fs p Content.joblib with
      | some v => Except.ok (some v, [Method.joblib])
      | none => Except.error [Method.joblib]

/-- `load_model_safe` (app.py lines 60-96) with its attempt trace: the
outer `except` converts any escaping exception into a warning plus `None`
(lines 94-96). -/
def load_model_safeT (tfAvailable : Bool) (base : String) (fs : FS)
    (filename : String) : Option ℕ × List Method :=
  match loadBody tfAvailable base fs filename with
  | Except.ok r => r
  | Except.error t => (none, t)

/-- The value `load_model_safe` returns to its caller. -/
def load_model_safe (tfAvailable : Bool) (base : String) (fs : FS)
    (filename : String) : Option ℕ :=
  (load_model_safeT tfAvailable base fs filename).1

/-- The body of `load_json_safe` inside its `try` (app.py lines 100-105):
resolve with `find_file_simple`, then open and parse; opening a directory
or a parse failure raises (`Except.error`). -/
def loadJsonBody (base : String) (fs : FS) (filename : String) :
    Except Unit (Option Json) :=
  match find_file_simple base fs filename with
  | none => Except.ok none
  | some p =>
    match fs p with
    | some (Entry.file c) =>
      match c.json with
      | some j => Except.ok (some j)
      | none => Except.error ()
    | _ => Except.error ()

/-- `load_json_safe` (app.py lines 98-108): the `except` converts any
escaping exception into a warning plus `None`. -/
def load_json_safe (base : String) (fs : FS) (filename : String) :
    Option Json :=
  match loadJsonBody base fs filename with
  | Except.ok r => r
  | Except.error _ => none

/-- Python truthiness of a JSON value, for `load_json_safe(...) or {}`
(app.py line 132). -/
def truthy : Json → Bool
  | Json.null => false
  | Json.bool v => v
  | Json.num q => q != 0
  | Json.str s => s != ""
  | Json.arr xs => !xs.isEmpty
  | Json.obj kvs => !kvs.isEmpty

/-- `load_json_safe("threshold.json") or {}` (app.py line 132). -/
def threshold_data_of (r : Option Json) : Json :=
  match r with
  | none => Json.obj []
  | some v => if truthy v then v else Json.obj []

/-- `threshold_data.get("optimal_threshold", 0.5)` (app.py line 987):
`dict.get` with default `0.5`; on a non-dict value `.get` raises
(`none`). -/
def opt_thresh_of (td : Json) : Option Json :=
  match td with
  | Json.obj kvs => some ((kvs.lookup "optimal_threshold").getD (Json.num (1/2)))
  | _ => none

/-- Match-outcome decision (app.py line 944): `if proba > 0.5:` — the
positive branch (HOME TEAM WINS) iff the probability strictly exceeds the
hardcoded `0.5`. -/
def matchPositive (proba : ℚ) : Bool :=
  proba > 1/2

/-- League-champion decision (app.py line 1034): `if proba > opt_thresh:`
— the positive branch (CHAMPION PREDICTED) iff the probability strictly
exceeds the configured threshold. -/
def leaguePositive (proba opt_thresh : ℚ) : Bool :=
  proba > opt_thresh

/-- The process-wide artifacts loaded at module level
(app.py lines 115-143). -/
structure LoadedState where
  league_model : Option ℕ
  league_scaler : Option ℕ
  league_metadata : Option Json
  threshold_data : Json
  goals_model : Option ℕ
  assists_model : Option ℕ
  goals_meta_json : Option Json
  assists_meta_json : Option Json
  match_model : Option ℕ
  match_feature_scaler : Option ℕ

/-- Module-level loading (app.py lines 127-143): each artifact is loaded
independently; the match-predictor artifacts are requested only when
TensorFlow is available (line 141). -/
def loadAll (tfAvailable : Bool) (base : String) (fs : FS) : LoadedState :=
  { league_model := load_model_safe tfAvailable base fs "rf_model.joblib"
    league_scaler := load_model_safe tfAvailable base fs "scaler.joblib"
    league_metadata := load_json_safe base fs "model_metadata.json"
    threshold_data :=
      threshold_data_of (load_json_safe base fs "threshold.json")
    goals_model := load_model_safe tfAvailable base fs "xgb_goals_pipeline.pkl"
    assists_model :=
      load_model_safe tfAvailable base fs "xgb_assists_pipeline.pkl"
    goals_meta_json := load_json_safe base fs "metadata_goals.json"
    assists_meta_json := load_json_safe base fs "metadata_assists.json"
    match_model :=
      if tfAvailable then
        load_model_safe tfAvailable base fs "best_football_predictor.h5"
      else none
    match_feature_scaler :=
      if tfAvailable then
        load_model_safe tfAvailable base fs "feature_scaler.pkl"
      else none }

/-- The filenames passed to the loaders at module level, in program order
(app.py lines 129-143). -/
def requestedFiles (tfAvailable : Bool) : List String :=
  ["rf_model.joblib", "scaler.joblib", "model_metadata.json",
   "threshold.json", "xgb_goals_pipeline.pkl", "xgb_assists_pipeline.pkl",
   "metadata_goals.json", "metadata_assists.json"] ++
  (if tfAvailable then
    ["best_football_predictor.h5", "feature_scaler.pkl"]
  else [])

/-- All artifact filenames the dashboard ever consumes. -/
def allArtifactFiles : List String := requestedFiles true

/-- The prediction features of the dashboard. -/
inductive Feature where
  | league
  | playerGoals
  | playerAssists
  | matchOutcome
deriving DecidableEq, Repr

/-- The artifact files each feature's page consults (app.py lines 977 and
987 for league; 692-744 for the player pages; 834 and 909-917 for the
match page — `match_features` is a hardcoded list, line 850). -/
def dependsOnFiles : Feature → List String
  | Feature.league =>
      ["rf_model.joblib", "scaler.joblib", "model_metadata.json",
       "threshold.json"]
  | Feature.playerGoals => ["xgb_goals_pipeline.pkl", "metadata_goals.json"]
  | Feature.playerAssists =>
      ["xgb_assists_pipeline.pkl", "metadata_assists.json"]
  | Feature.matchOutcome =>
      ["best_football_predictor.h5", "feature_scaler.pkl"]

/-- Everything a feature's page reads from the loaded state: the loaded
artifacts it dereferences (padded to a common shape).  The rendered page
is a function of this view and the user's inputs alone. -/
def featureView (s : LoadedState) :
    Feature → Option ℕ × Option ℕ × Option Json × Json
  | Feature.league =>
      (s.league_model, s.league_scaler, s.league_metadata, s.threshold_data)
  | Feature.playerGoals => (s.goals_model, none, s.goals_meta_json, Json.null)
  | Feature.playerAssists =>
      (s.assists_model, none, s.assists_meta_json, Json.null)
  | Feature.matchOutcome =>
      (s.match_model, s.match_feature_scaler, none, Json.null)

/-- The availability guard of each feature's page (app.py lines 977,
692-695, 834). -/
def featureAvailable (tfAvailable : Bool) (s : LoadedState) :
    Feature → Bool
  | Feature.league =>
      s.league_model.isSome && s.league_scaler.isSome &&
        s.league_metadata.isSome
  | Feature.playerGoals => s.goals_model.isSome
  | Feature.playerAssists => s.assists_model.isSome
  | Feature.matchOutcome =>
      tfAvailable && s.match_model.isSome && s.match_feature_scaler.isSome

/-- Python numeric coercion of a JSON value for a `float > value`
comparison: numbers compare directly and booleans as `0`/`1`; any other
type raises a `TypeError` (`none`). -/
def jsonAsFloat : Json → Option ℚ
  | Json.num q => some q
  | Json.bool v => some (if v then 1 else 0)
  | _ => none

/-- The match-outcome branch as a function of the loaded session state
(app.py line 944): `if proba > 0.5:` — the decision reads only the
predicted probability; `threshold_data` is in scope but unused. -/
def matchBranchOfState (_s : LoadedState) (proba : ℚ) : Bool :=
  matchPositive proba

/-- The league-champion branch as a function of the loaded session state
(app.py lines 987 and 1034): read `optimal_threshold` from
`threshold_data` (default `0.5`) and compare strictly; `none` models an
exception escaping to the page's handler. -/
def leagueBranchOfState (s : LoadedState) (proba : ℚ) : Option Bool :=
  (opt_thresh_of s.threshold_data).bind fun j =>
    (jsonAsFloat j).map fun q => leaguePositive proba q

/-! Concrete filesystem states used by witnesses and counterexamples. -/

/-- A content blob every deserializer accepts. -/
def cAll : Content := ⟨some 1, some 1, some 1, some 1, some (Json.obj [])⟩

/-- A byte stream only `pickle` and `cloudpickle` accept (`joblib`
raises). -/
def cPickleOnly : Content := ⟨none, some 7, some 8, none, none⟩

/-- A byte stream no deserializer accepts. -/
def cBroken : Content := ⟨none, none, none, none, none⟩

/-- A loadable neural-network archive. -/
def cKeras : Content := ⟨none, none, none, some 3, none⟩

/-- The empty filesystem. -/
def fsEmpty : FS := fun _ => none

/-- Two directories only: the base directory `B` and `B/models`. -/
def fsDirs : FS := fun p =>
  if p = "B" then some Entry.dir
  else if p = "B/models" then some Entry.dir
  else none

/-- Only an alternate-extension variant of the requested name exists. -/
def fsAlt : FS := fun p =>
  if p = "B/models/name.pkl" then some (Entry.file cAll) else none

/-- One pickle-only artifact at `B/m.pkl`. -/
def fsPickleOnly : FS := fun p =>
  if p = "B/m.pkl" then some (Entry.file cPickleOnly) else none

/-- One broken artifact at `B/m.pkl`. -/
def fsBroken : FS := fun p =>
  if p = "B/m.pkl" then some (Entry.file cBroken) else none

/-- One neural-network archive at `B/m.h5`. -/
def fsKeras : FS := fun p =>
  if p = "B/m.h5" then some (Entry.file cKeras) else none

/-- A `.h5` archive whose bytes the framework deserializer rejects. -/
def fsKerasBad : FS := fun p =>
  if p = "B/m.h5" then some (Entry.file cBroken) else none

/-- An artifact with an unrecognized extension at `B/d.csv`. -/
def fsCsv : FS := fun p =>
  if p = "B/d.csv" then some (Entry.file cAll) else none

/-- The same name placed in two candidate directories: priority test. -/
def fsTwo : FS := fun p =>
  if p = "B/m.pkl" then some (Entry.file cAll)
  else if p = "B/models/m.pkl" then some (Entry.file cBroken)
  else none

/-- A `threshold.json` whose `optimal_threshold` is `0.7`. -/
def fsThresh : FS := fun p =>
  if p = "B/threshold.json" then
    some (Entry.file
      ⟨none, none, none, none,
        some (Json.obj [("optimal_threshold", Json.num (7/10))])⟩)
  else none

/-- Only the match-predictor network artifact exists, in the base
directory. -/
def fsMatchOnly : FS := fun p =>
  if p = "B/best_football_predictor.h5" then some (Entry.file cKeras)
  else none

/-! ## Helper lemmas -/

/-- Two nonempty suffixes of one string end in its last character; with
different last characters they cannot both be suffixes. -/
theorem endswith_disjoint_last {s a b : String} (ha : a.data ≠ [])
    (hb : b.data ≠ []) (hne : a.data.getLast ha ≠ b.data.getLast hb)
    (hsa : endswith s a = true) : endswith s b = false := by
  cases hob : endswith s b
  · rfl
  · exfalso
    unfold endswith at hsa hob
    rw [List.isSuffixOf_iff_suffix] at hsa hob
    exact hne ((hsa.getLast ha).trans (hob.getLast hb).symm)

/-- A `.pkl` name is not a `.h5` name. -/
theorem ends_pkl_not_h5 {s : String} (h : endswith s ".pkl" = true) :
    endswith s ".h5" = false :=
  endswith_disjoint_last (by decide) (by decide) (by decide) h

/-- A `.joblib` name is not a `.h5` name. -/
theorem ends_joblib_not_h5 {s : String} (h : endswith s ".joblib" = true) :
    endswith s ".h5" = false :=
  endswith_disjoint_last (by decide) (by decide) (by decide) h

/-- The component after the last separator is determined: if two
slash-free tails sit after a `'/'`, they are equal. -/
theorem slash_tail_eq : ∀ (u : List Char) {v s t : List Char},
    '/' ∉ s → '/' ∉ t → u ++ '/' :: s = v ++ '/' :: t → s = t := by
  intro u
  induction u with
  | nil =>
    intro v s t hs ht h
    cases v with
    | nil => simpa using h
    | cons d ds =>
      simp only [List.nil_append, List.cons_append, List.cons.injEq] at h
      exact absurd (h.2 ▸ List.mem_append_right ds (List.mem_cons_self _ _))
        hs
  | cons c cs ih =>
    intro v s t hs ht h
    cases v with
    | nil =>
      simp only [List.cons_append, List.nil_append, List.cons.injEq] at h
      exact absurd (h.2.symm ▸ List.mem_append_right cs
        (List.mem_cons_self _ _)) ht
    | cons d ds =>
      simp only [List.cons_append, List.cons.injEq] at h
      exact ih hs ht h.2

/-- A slash-free string is never a slash-joined path. -/
theorem bare_ne_joined {fa : String} (ha : '/' ∉ fa.data)
    (x fb : String) : fa ≠ x ++ "/" ++ fb := by
  intro h
  apply ha
  rw [h]
  simp only [String.data_append]
  exact List.mem_append_left _ (List.mem_append_right _ (by decide))

/-- Joined paths with distinct slash-free final components differ. -/
theorem joined_ne_joined {fa fb : String} (ha : '/' ∉ fa.data)
    (hb : '/' ∉ fb.data) (hne : fa ≠ fb) (x y : String) :
    x ++ "/" ++ fa ≠ y ++ "/" ++ fb := by
  intro h
  apply hne
  apply String.ext
  have hd := congrArg String.data h
  simp only [String.data_append] at hd
  rw [List.append_assoc, List.append_assoc] at hd
  exact slash_tail_eq x.data ha hb (by simpa using hd)

/-- With a nonempty filename, every candidate is the bare name or a
slash-join ending in it. -/
theorem locations_eq_of_ne_empty (base f : String) (hf : f ≠ "") :
    locations base f =
      [f, base ++ "/" ++ f, base ++ "/" ++ "models" ++ "/" ++ f,
       base ++ "/" ++ "metadata" ++ "/" ++ f, "models" ++ "/" ++ f,
       "metadata" ++ "/" ++ f] := by
  simp [locations, pjoin, hf, show ("models" : String) ≠ "" by decide,
    show ("metadata" : String) ≠ "" by decide]

/-- Candidate lists of distinct slash-free filenames are disjoint, for
every base directory. -/
theorem locations_disjoint {fa fb : String} (hne : fa ≠ fb)
    (hfa : fa ≠ "") (hfb : fb ≠ "") (ha : '/' ∉ fa.data)
    (hb : '/' ∉ fb.data) (base : String) :
    ∀ p ∈ locations base fa, p ∉ locations base fb := by
  intro p hp hq
  rw [locations_eq_of_ne_empty base fa hfa] at hp
  rw [locations_eq_of_ne_empty base fb hfb] at hq
  simp only [List.mem_cons, List.not_mem_nil, or_false] at hp hq
  rcases hp with rfl | rfl | rfl | rfl | rfl | rfl <;>
    rcases hq with h | h | h | h | h | h <;>
    first
      | exact hne h
      | exact bare_ne_joined ha _ _ h
      | exact bare_ne_joined hb _ _ h.symm
      | exact joined_ne_joined ha hb hne _ _ h

/-- Every artifact filename is nonempty and slash-free. -/
theorem artifactFiles_wf :
    ∀ x ∈ allArtifactFiles, x ≠ "" ∧ '/' ∉ x.data := by decide

/-- `find?` respects pointwise-equal predicates. -/
theorem find?_congr_pred (f g : String → Bool) :
    ∀ (l : List String), (∀ x ∈ l, f x = g x) → l.find? f = l.find? g := by
  intro l
  induction l with
  | nil => intro _; rfl
  | cons x xs ih =>
    intro h
    rw [List.find?_cons, List.find?_cons, h x (List.mem_cons_self x xs)]
    cases g x
    · exact ih fun y hy => h y (List.mem_cons_of_mem x hy)
    · rfl

/-- Resolution reads the filesystem only at the candidate locations. -/
theorem find_file_simple_frame {fs₁ fs₂ : FS} (base fn : String)
    (h : ∀ l ∈ locations base fn, fs₁ l = fs₂ l) :
    find_file_simple base fs₁ fn = find_file_simple base fs₂ fn := by
  unfold find_file_simple
  exact find?_congr_pred _ _ _ fun l hl => by
    unfold osExists; rw [h l hl]

/-- Loading reads the filesystem only at the candidate locations of the
requested filename. -/
theorem load_model_safeT_frame {fs₁ fs₂ : FS} (tf : Bool)
    (base fn : String) (h : ∀ l ∈ locations base fn, fs₁ l = fs₂ l) :
    load_model_safeT tf base fs₁ fn = load_model_safeT tf base fs₂ fn := by
  unfold load_model_safeT loadBody
  rw [find_file_simple_frame base fn h]
  cases hfind : find_file_simple base fs₂ fn with
  | none => rfl
  | some p =>
    have hp : p ∈ locations base fn := List.mem_of_find?_eq_some hfind
    simp only [deser, h p hp]

/-- JSON loading reads the filesystem only at the candidate locations. -/
theorem load_json_safe_frame {fs₁ fs₂ : FS} (base fn : String)
    (h : ∀ l ∈ locations base fn, fs₁ l = fs₂ l) :
    load_json_safe base fs₁ fn = load_json_safe base fs₂ fn := by
  unfold load_json_safe loadJsonBody
  rw [find_file_simple_frame base fn h]
  cases hfind : find_file_simple base fs₂ fn with
  | none => rfl
  | some p =>
    have hp : p ∈ locations base fn := List.mem_of_find?_eq_some hfind
    simp only [h p hp]

/-! ## Claim theorems -/

/-- C1: `find_file_simple` scans the fixed ordered candidate list (bare
name, base directory, its `models/` and `metadata/` subfolders, relative
`models/` and `metadata/`) and returns the first candidate that exists;
every earlier candidate does not exist, so a file in an earlier-priority
directory wins; when no candidate exists it returns `none` (and it is a
total function, so it never raises). -/
theorem find_file_simple_first_match (base : String) (fs : FS)
    (filename : String) :
    (∀ p, find_file_simple base fs filename = some p →
        osExists fs p = true ∧
        ∃ pre post, locations base filename = pre ++ p :: post ∧
          ∀ l ∈ pre, osExists fs l = false) ∧
    (find_file_simple base fs filename = none ↔
        ∀ l ∈ locations base filename, osExists fs l = false) := by
  constructor
  · intro p hp
    have hex : osExists fs p = true := List.find?_some hp
    obtain ⟨-, pre, post, heq, hall⟩ := List.find?_eq_some.mp hp
    exact ⟨hex, pre, post, heq, fun l hl => by simpa using hall l hl⟩
  · unfold find_file_simple
    rw [List.find?_eq_none]
    constructor
    · intro h l hl
      simpa using h l hl
    · intro h l hl
      simp [h l hl]

/-- C1 witness: at a concrete state with `m.pkl` present in both the base
directory and its `models/` subfolder, resolution returns the
earlier-priority path `B/m.pkl` and every earlier candidate was absent;
and on the empty filesystem resolution of the same name is `none`. -/
theorem find_file_simple_first_match_witness :
    (osExists fsTwo "B/m.pkl" = true ∧
      ∃ pre post, locations "B" "m.pkl" = pre ++ "B/m.pkl" :: post ∧
        ∀ l ∈ pre, osExists fsTwo l = false) ∧
    find_file_simple "B" fsEmpty "m.pkl" = none := by
  constructor
  · exact (find_file_simple_first_match "B" fsTwo "m.pkl").1 "B/m.pkl"
      (by decide)
  · exact (find_file_simple_first_match "B" fsEmpty "m.pkl").2.mpr
      (by decide)

/-- C3 counterexample: the code performs no alternate-extension
broadening.  With only the `.pkl` variant of the requested `.joblib` name
present (in a scanned candidate directory), resolution returns `none`
rather than the variant's path. -/
theorem find_file_simple_no_alternate_extension :
    find_file_simple "B" fsAlt "name.joblib" = none ∧
    osExists fsAlt "B/models/name.pkl" = true ∧
    "B/models/name.pkl" ∈ locations "B" "name.pkl" := by
  refine ⟨by decide, by decide, by decide⟩

/-- C3 amended: when no exact match for the requested name exists among
the candidate locations, `find_file_simple` returns `none` directly — no
alternate-extension substitution is performed, and any path it returns is
always one of the exact-name candidates. -/
theorem find_file_simple_exact_name_only (base : String) (fs : FS)
    (filename : String) :
    (∀ p, find_file_simple base fs filename = some p →
        p ∈ locations base filename) ∧
    ((∀ l ∈ locations base filename, osExists fs l = false) →
        find_file_simple base fs filename = none) := by
  constructor
  · intro p hp
    exact List.mem_of_find?_eq_some hp
  · exact (find_file_simple_first_match base fs filename).2.mpr

/-- C3 amended witness: applied at the counterexample state — every
exact-name candidate of `name.joblib` is absent, so resolution yields
`none`; and the path resolved for `m.pkl` on `fsTwo` is one of its
candidates. -/
theorem find_file_simple_exact_name_only_witness :
    find_file_simple "B" fsAlt "name.joblib" = none ∧
    "B/m.pkl" ∈ locations "B" "m.pkl" := by
  constructor
  · exact (find_file_simple_exact_name_only "B" fsAlt "name.joblib").2
      (by decide)
  · exact (find_file_simple_exact_name_only "B" fsTwo "m.pkl").1 "B/m.pkl"
      (by decide)

/-- C10: the existence check of `find_file_simple` is `os.path.exists`,
which accepts directories.  For the empty-string name (where
`BASE_DIR / ""` is `BASE_DIR` itself) resolution returns the base
directory, and for a name equal to the existing `models` subdirectory it
returns that directory's path — not `none`. -/
theorem find_file_simple_accepts_directories :
    find_file_simple "B" fsDirs "" = some "B" ∧
    fsDirs "B" = some Entry.dir ∧
    find_file_simple "B" fsDirs "models" = some "B/models" ∧
    fsDirs "B/models" = some Entry.dir := by
  exact ⟨by decide, rfl, by decide, rfl⟩

/-- C2: for a found `.pkl`/`.joblib` artifact, `load_model_safe` tries
`joblib` first; when it raises, `pickle` is attempted exactly once, then
`cloudpickle`, in that fixed order.  A byte stream loadable only by the
secondary method still succeeds, and `none` is returned exactly when every
method raised. -/
theorem load_model_safe_fallback_order (tf : Bool) (base : String)
    (fs : FS) (fn p : String) (c : Content)
    (hext : endswith fn ".pkl" = true ∨ endswith fn ".joblib" = true)
    (hfind : find_file_simple base fs fn = some p)
    (hfile : fs p = some (Entry.file c)) :
    (∀ v, c.joblib = some v →
        load_model_safeT tf base fs fn = (some v, [Method.joblib])) ∧
    (∀ v, c.joblib = none → c.pickle = some v →
        load_model_safeT tf base fs fn =
          (some v, [Method.joblib, Method.pickle])) ∧
    (∀ v, c.joblib = none → c.pickle = none → c.cloudpickle = some v →
        load_model_safeT tf base fs fn =
          (some v, [Method.joblib, Method.pickle, Method.cloudpickle])) ∧
    (load_model_safe tf base fs fn = none ↔
        c.joblib = none ∧ c.pickle = none ∧ c.cloudpickle = none) ∧
    (c.joblib = none →
        (load_model_safeT tf base fs fn).2.count Method.pickle = 1) := by
  have h5 : endswith fn ".h5" = false := by
    cases hext with
    | inl h => exact ends_pkl_not_h5 h
    | inr h => exact ends_joblib_not_h5 h
  have hpj : (endswith fn ".pkl" || endswith fn ".joblib") = true := by
    cases hext with
    | inl h => simp [h]
    | inr h => simp [h]
  simp only [load_model_safe, load_model_safeT, loadBody, hfind, h5, hpj,
    Bool.false_eq_true, if_false, if_true, deser, hfile]
  cases hj : c.joblib with
  | some v => simp
  | none =>
    cases hp : c.pickle with
    | some v => simp
    | none =>
      cases hc : c.cloudpickle with
      | some v => simp
      | none => simp

/-- C2 witness: a concrete `.pkl` artifact whose bytes `joblib` rejects
but `pickle` accepts loads successfully via the secondary method, with
`pickle` attempted exactly once; and a fully broken artifact yields
`none`. -/
theorem load_model_safe_fallback_order_witness :
    load_model_safeT true "B" fsPickleOnly "m.pkl" =
      (some 7, [Method.joblib, Method.pickle]) ∧
    load_model_safe true "B" fsBroken "m.pkl" = none := by
  constructor
  · exact (load_model_safe_fallback_order true "B" fsPickleOnly "m.pkl"
      "B/m.pkl" cPickleOnly (Or.inl (by decide)) (by decide) rfl).2.1 7
      rfl rfl
  · exact (load_model_safe_fallback_order true "B" fsBroken "m.pkl"
      "B/m.pkl" cBroken (Or.inl (by decide)) (by decide) rfl).2.2.2.1.mpr
      ⟨rfl, rfl, rfl⟩

/-- C4: dispatch is purely by filename extension.  A `.h5` name only ever
invokes the neural-network deserializer (every attempted method is
`keras`); a `.pkl`/`.joblib` name never invokes `keras`; a found file with
an unrecognized extension is attempted with the primary deserializer
`joblib` alone, as a best-effort default. -/
theorem load_model_safe_extension_dispatch (tf : Bool) (base : String)
    (fs : FS) (fn : String) :
    (endswith fn ".h5" = true →
        ∀ m ∈ (load_model_safeT tf base fs fn).2, m = Method.keras) ∧
    (endswith fn ".pkl" = true ∨ endswith fn ".joblib" = true →
        Method.keras ∉ (load_model_safeT tf base fs fn).2) ∧
    (endswith fn ".h5" = false → endswith fn ".pkl" = false →
        endswith fn ".joblib" = false →
        ∀ p, find_file_simple base fs fn = some p →
          (load_model_safeT tf base fs fn).2 = [Method.joblib]) := by
  refine ⟨?_, ?_, ?_⟩
  · intro h5 m hm
    simp only [load_model_safeT, loadBody, h5, if_true] at hm
    cases hfind : find_file_simple base fs fn with
    | none => simp [hfind] at hm
    | some p =>
      rw [hfind] at hm
      cases tf with
      | false => simp at hm
      | true =>
        cases hk : deser fs p Content.keras with
        | none => simp [hk] at hm; exact hm
        | some v => simp [hk] at hm; exact hm
  · intro hext hm
    have h5 : endswith fn ".h5" = false := by
      cases hext with
      | inl h => exact ends_pkl_not_h5 h
      | inr h => exact ends_joblib_not_h5 h
    have hpj : (endswith fn ".pkl" || endswith fn ".joblib") = true := by
      cases hext with
      | inl h => simp [h]
      | inr h => simp [h]
    simp only [load_model_safeT, loadBody, h5, hpj, Bool.false_eq_true,
      if_false, if_true] at hm
    cases hfind : find_file_simple base fs fn with
    | none => simp [hfind] at hm
    | some p =>
      rw [hfind] at hm
      cases hj : deser fs p Content.joblib with
      | some v => simp [hj] at hm
      | none =>
        cases hp : deser fs p Content.pickle with
        | some v => simp [hj, hp] at hm
        | none =>
          cases hc : deser fs p Content.cloudpickle with
          | some v => simp [hj, hp, hc] at hm
          | none => simp [hj, hp, hc] at hm
  · intro h5 hpkl hjob p hfind
    simp only [load_model_safeT, loadBody, hfind, h5, hpkl, hjob,
      Bool.or_self, Bool.false_eq_true, if_false]
    cases hj : deser fs p Content.joblib with
    | some v => simp [hj]
    | none => simp [hj]

/-- C4 witness: a loadable `.h5` archive invokes only `keras`; a `.pkl`
artifact's trace never contains `keras`; a found `.csv` file is attempted
with `joblib` alone. -/
theorem load_model_safe_extension_dispatch_witness :
    (∀ m ∈ (load_model_safeT true "B" fsKeras "m.h5").2,
        m = Method.keras) ∧
    Method.keras ∉ (load_model_safeT true "B" fsPickleOnly "m.pkl").2 ∧
    (load_model_safeT true "B" fsCsv "d.csv").2 = [Method.joblib] := by
  refine ⟨?_, ?_, ?_⟩
  · exact (load_model_safe_extension_dispatch true "B" fsKeras "m.h5").1
      (by decide)
  · exact (load_model_safe_extension_dispatch true "B" fsPickleOnly
      "m.pkl").2.1 (Or.inl (by decide))
  · exact (load_model_safe_extension_dispatch true "B" fsCsv "d.csv").2.2
      (by decide) (by decide) (by decide) "B/d.csv" (by decide)

/-- C5: `load_model_safe` never raises to its caller.  A missing file, an
unavailable deep-learning framework for a `.h5` artifact, a byte stream
every generic strategy rejects, and even an exception escaping the body
(`loadBody` error) each produce the explicit absent outcome `none`; and
when the framework is unavailable the match-predictor artifacts are never
requested at module level. -/
theorem load_model_safe_never_raises (tf : Bool) (base : String) (fs : FS)
    (fn : String) :
    (find_file_simple base fs fn = none →
        load_model_safe tf base fs fn = none) ∧
    (endswith fn ".h5" = true → tf = false →
        load_model_safe tf base fs fn = none) ∧
    (∀ p c, find_file_simple base fs fn = some p →
        fs p = some (Entry.file c) →
        (endswith fn ".pkl" = true ∨ endswith fn ".joblib" = true) →
        c.joblib = none → c.pickle = none → c.cloudpickle = none →
        load_model_safe tf base fs fn = none) ∧
    (∀ t, loadBody tf base fs fn = Except.error t →
        load_model_safe tf base fs fn = none) ∧
    ("best_football_predictor.h5" ∉ requestedFiles false ∧
      "feature_scaler.pkl" ∉ requestedFiles false) ∧
    (tf = false → (loadAll tf base fs).match_model = none ∧
      (loadAll tf base fs).match_feature_scaler = none) := by
  refine ⟨?_, ?_, ?_, ?_, by decide, ?_⟩
  · intro hfind
    simp [load_model_safe, load_model_safeT, loadBody, hfind]
  · intro h5 htf
    subst htf
    cases hfind : find_file_simple base fs fn with
    | none => simp [load_model_safe, load_model_safeT, loadBody, hfind]
    | some p => simp [load_model_safe, load_model_safeT, loadBody, hfind, h5]
  · intro p c hfind hfile hext hj hpk hc
    exact (load_model_safe_fallback_order tf base fs fn p c hext hfind
      hfile).2.2.2.1.mpr ⟨hj, hpk, hc⟩
  · intro t herr
    simp [load_model_safe, load_model_safeT, herr]
  · intro htf
    subst htf
    simp [loadAll]

/-- C5 witness: concrete absent outcomes — a file missing from every
location, a `.h5` artifact without TensorFlow, a fully broken `.pkl`, and
a `.h5` whose deserialization raises (body error) each yield `none`; the
match-predictor filenames are absent from the TensorFlow-less request
list. -/
theorem load_model_safe_never_raises_witness :
    load_model_safe true "B" fsEmpty "m.pkl" = none ∧
    load_model_safe false "B" fsKeras "m.h5" = none ∧
    load_model_safe true "B" fsBroken "m.pkl" = none ∧
    load_model_safe true "B" fsKerasBad "m.h5" = none ∧
    (loadAll false "B" fsKeras).match_model = none := by
  refine ⟨?_, ?_, ?_, ?_, ?_⟩
  · exact (load_model_safe_never_raises true "B" fsEmpty "m.pkl").1
      (by decide)
  · exact (load_model_safe_never_raises false "B" fsKeras "m.h5").2.1
      (by decide) rfl
  · exact (load_model_safe_never_raises true "B" fsBroken "m.pkl").2.2.1
      "B/m.pkl" cBroken (by decide) rfl (Or.inl (by decide)) rfl rfl rfl
  · exact (load_model_safe_never_raises true "B" fsKerasBad "m.h5").2.2.2.1
      [Method.keras] rfl
  · exact ((load_model_safe_never_raises false "B" fsKeras
      "m.h5").2.2.2.2.2 rfl).1

/-- C6: `load_json_safe` resolves with the same strategy as
`find_file_simple` and returns `none` on resolution failure and on any
I/O or parse error (a `loadJsonBody` exception); no exception crosses its
boundary.  A successful result always comes from parsing the file at the
resolved path. -/
theorem load_json_safe_never_raises (base : String) (fs : FS)
    (fn : String) :
    (find_file_simple base fs fn = none →
        load_json_safe base fs fn = none) ∧
    (∀ e, loadJsonBody base fs fn = Except.error e →
        load_json_safe base fs fn = none) ∧
    (∀ j, load_json_safe base fs fn = some j →
        ∃ p c, find_file_simple base fs fn = some p ∧
          fs p = some (Entry.file c) ∧ c.json = some j) := by
  refine ⟨?_, ?_, ?_⟩
  · intro hfind
    simp [load_json_safe, loadJsonBody, hfind]
  · intro e herr
    simp [load_json_safe, herr]
  · intro j hj
    unfold load_json_safe loadJsonBody at hj
    cases hfind : find_file_simple base fs fn with
    | none => rw [hfind] at hj; simp at hj
    | some p =>
      rw [hfind] at hj
      cases hfile : fs p with
      | none => simp [hfile] at hj
      | some entry =>
        cases entry with
        | dir => simp [hfile] at hj
        | file c =>
          cases hjson : c.json with
          | none => simp [hfile, hjson] at hj
          | some j' =>
            simp [hfile, hjson] at hj
            exact ⟨p, c, rfl, hfile, by rw [hjson, hj]⟩

/-- C6 witness: a missing JSON file yields `none`; opening a directory
(an I/O error raised inside the body) yields `none`; and the concrete
`threshold.json` loads as the record parsed at its resolved path. -/
theorem load_json_safe_never_raises_witness :
    load_json_safe "B" fsEmpty "threshold.json" = none ∧
    load_json_safe "B" fsDirs "models" = none ∧
    (∃ p c, find_file_simple "B" fsThresh "threshold.json" = some p ∧
      fsThresh p = some (Entry.file c) ∧
      c.json = some (Json.obj [("optimal_threshold", Json.num (7/10))])) := by
  refine ⟨?_, ?_, ?_⟩
  · exact (load_json_safe_never_raises "B" fsEmpty "threshold.json").1
      (by decide)
  · exact (load_json_safe_never_raises "B" fsDirs "models").2.1 () rfl
  · exact (load_json_safe_never_raises "B" fsThresh "threshold.json").2.2
      (Json.obj [("optimal_threshold", Json.num (7/10))]) rfl

/-- C7: both binary decisions compare strictly: the positive branch (home
win, line 944; champion, line 1034) is selected iff the probability
strictly exceeds the threshold, so `0.82 > 0.5` is positive, `0.3` is
negative, and a probability exactly equal to the threshold falls to the
negative branch. -/
theorem decision_threshold_strict (p t : ℚ) :
    (matchPositive p = true ↔ p > 1/2) ∧
    (leaguePositive p t = true ↔ p > t) ∧
    matchPositive (82/100) = true ∧
    matchPositive (3/10) = false ∧
    matchPositive (1/2) = false ∧
    leaguePositive (82/100) (1/2) = true ∧
    leaguePositive (3/10) (1/2) = false ∧
    leaguePositive t t = false := by
  refine ⟨by simp [matchPositive], by simp [leaguePositive],
    by norm_num [matchPositive], by norm_num [matchPositive],
    by norm_num [matchPositive], by norm_num [leaguePositive],
    by norm_num [leaguePositive], by simp [leaguePositive]⟩

/-- C9: the match-outcome branch compares against the hardcoded `0.5` for
every filesystem (hence for every content of `threshold.json`), and the
configured `optimal_threshold` — defaulting to `0.5` through `or {}` and
`.get` when the file or key is absent — feeds only the league-champion
decision. -/
theorem match_threshold_hardcoded (tf : Bool) (base : String) (fs : FS)
    (p : ℚ) :
    (matchBranchOfState (loadAll tf base fs) p = true ↔ p > 1/2) ∧
    (∀ fs₂ : FS, matchBranchOfState (loadAll tf base fs₂) p =
        matchBranchOfState (loadAll tf base fs) p) ∧
    (load_json_safe base fs "threshold.json" = none →
        opt_thresh_of (loadAll tf base fs).threshold_data =
          some (Json.num (1/2))) ∧
    (∀ kvs, load_json_safe base fs "threshold.json" = some (Json.obj kvs) →
        kvs.lookup "optimal_threshold" = none →
        opt_thresh_of (loadAll tf base fs).threshold_data =
          some (Json.num (1/2))) ∧
    (∀ kvs q,
        load_json_safe base fs "threshold.json" = some (Json.obj kvs) →
        kvs.lookup "optimal_threshold" = some (Json.num q) →
        leagueBranchOfState (loadAll tf base fs) p =
          some (leaguePositive p q)) := by
  refine ⟨by simp [matchBranchOfState, matchPositive], fun fs₂ => rfl,
    ?_, ?_, ?_⟩
  · intro hload
    simp [loadAll, hload, threshold_data_of, opt_thresh_of]
  · intro kvs hload hlook
    cases kvs with
    | nil =>
      simp [loadAll, hload, threshold_data_of, truthy, opt_thresh_of]
    | cons kv rest =>
      simp [loadAll, hload, threshold_data_of, truthy, opt_thresh_of,
        hlook]
  · intro kvs q hload hlook
    have hne : kvs ≠ [] := by
      intro h
      rw [h] at hlook
      simp at hlook
    simp [loadAll, hload, threshold_data_of, truthy, hne,
      leagueBranchOfState, opt_thresh_of, hlook, jsonAsFloat]

/-- C9 witness: with a `threshold.json` configuring `0.7`, a probability
of `0.6` still selects the match predictor's positive branch (`> 0.5`)
while the league decision uses the configured `0.7`; with no
`threshold.json` the league threshold defaults to `0.5`. -/
theorem match_threshold_hardcoded_witness :
    matchBranchOfState (loadAll true "B" fsThresh) (6/10) = true ∧
    leagueBranchOfState (loadAll true "B" fsThresh) (6/10) =
      some (leaguePositive (6/10) (7/10)) ∧
    leaguePositive (6/10) (7/10) = false ∧
    opt_thresh_of (loadAll true "B" fsEmpty).threshold_data =
      some (Json.num (1/2)) := by
  refine ⟨?_, ?_, by norm_num [leaguePositive], ?_⟩
  · exact (match_threshold_hardcoded true "B" fsThresh (6/10)).1.mpr
      (by norm_num)
  · exact (match_threshold_hardcoded true "B" fsThresh
      (6/10)).2.2.2.2 [("optimal_threshold", Json.num (7/10))] (7/10)
      rfl rfl
  · exact (match_threshold_hardcoded true "B" fsEmpty (6/10)).2.2.1 rfl

/-- C8: no cross-feature coupling.  For any single artifact file, two
filesystem states that differ only at that artifact's candidate paths
produce the same loaded artifacts, page view and availability for every
prediction feature that does not depend on it — removing or breaking one
artifact never alters the features that remain (and `loadAll` is total,
so the session never aborts). -/
theorem artifact_noninterference (tf : Bool) (base : String)
    (fs₁ fs₂ : FS) (a : String) (ha : a ∈ allArtifactFiles)
    (hagree : ∀ p, p ∉ locations base a → fs₁ p = fs₂ p) :
    ∀ f : Feature, a ∉ dependsOnFiles f →
      featureView (loadAll tf base fs₁) f =
        featureView (loadAll tf base fs₂) f ∧
      featureAvailable tf (loadAll tf base fs₁) f =
        featureAvailable tf (loadAll tf base fs₂) f := by
  obtain ⟨hane, hasl⟩ := artifactFiles_wf a ha
  have key : ∀ b, b ∈ allArtifactFiles → b ≠ a →
      ∀ l ∈ locations base b, fs₁ l = fs₂ l := by
    intro b hb hne l hl
    obtain ⟨hbne, hbsl⟩ := artifactFiles_wf b hb
    exact hagree l (locations_disjoint hne hbne hane hbsl hasl base l hl)
  have loadM : ∀ b, b ∈ allArtifactFiles → b ≠ a →
      load_model_safe tf base fs₁ b = load_model_safe tf base fs₂ b := by
    intro b hb hne
    unfold load_model_safe
    rw [load_model_safeT_frame tf base b (key b hb hne)]
  have loadJ : ∀ b, b ∈ allArtifactFiles → b ≠ a →
      load_json_safe base fs₁ b = load_json_safe base fs₂ b := by
    intro b hb hne
    exact load_json_safe_frame base b (key b hb hne)
  intro f hf
  cases f with
  | league =>
    have h1 := loadM "rf_model.joblib" (by decide) fun he =>
      hf (he ▸ (by decide : "rf_model.joblib" ∈
        dependsOnFiles Feature.league))
    have h2 := loadM "scaler.joblib" (by decide) fun he =>
      hf (he ▸ (by decide : "scaler.joblib" ∈
        dependsOnFiles Feature.league))
    have h3 := loadJ "model_metadata.json" (by decide) fun he =>
      hf (he ▸ (by decide : "model_metadata.json" ∈
        dependsOnFiles Feature.league))
    have h4 := loadJ "threshold.json" (by decide) fun he =>
      hf (he ▸ (by decide : "threshold.json" ∈
        dependsOnFiles Feature.league))
    constructor <;>
      simp [featureView, featureAvailable, loadAll, h1, h2, h3, h4]
  | playerGoals =>
    have h1 := loadM "xgb_goals_pipeline.pkl" (by decide) fun he =>
      hf (he ▸ (by decide : "xgb_goals_pipeline.pkl" ∈
        dependsOnFiles Feature.playerGoals))
    have h2 := loadJ "metadata_goals.json" (by decide) fun he =>
      hf (he ▸ (by decide : "metadata_goals.json" ∈
        dependsOnFiles Feature.playerGoals))
    constructor <;>
      simp [featureView, featureAvailable, loadAll, h1, h2]
  | playerAssists =>
    have h1 := loadM "xgb_assists_pipeline.pkl" (by decide) fun he =>
      hf (he ▸ (by decide : "xgb_assists_pipeline.pkl" ∈
        dependsOnFiles Feature.playerAssists))
    have h2 := loadJ "metadata_assists.json" (by decide) fun he =>
      hf (he ▸ (by decide : "metadata_assists.json" ∈
        dependsOnFiles Feature.playerAssists))
    constructor <;>
      simp [featureView, featureAvailable, loadAll, h1, h2]
  | matchOutcome =>
    have h1 := loadM "best_football_predictor.h5" (by decide) fun he =>
      hf (he ▸ (by decide : "best_football_predictor.h5" ∈
        dependsOnFiles Feature.matchOutcome))
    have h2 := loadM "feature_scaler.pkl" (by decide) fun he =>
      hf (he ▸ (by decide : "feature_scaler.pkl" ∈
        dependsOnFiles Feature.matchOutcome))
    constructor <;>
      simp [featureView, featureAvailable, loadAll, h1, h2]

/-- C8 witness: adding the match-predictor network artifact to an empty
filesystem leaves the league feature's view and availability unchanged. -/
theorem artifact_noninterference_witness :
    featureView (loadAll true "B" fsEmpty) Feature.league =
      featureView (loadAll true "B" fsMatchOnly) Feature.league ∧
    featureAvailable true (loadAll true "B" fsEmpty) Feature.league =
      featureAvailable true (loadAll true "B" fsMatchOnly) Feature.league := by
  exact artifact_noninterference true "B" fsEmpty fsMatchOnly
    "best_football_predictor.h5" (by decide)
    (fun p hp => by
      by_cases hpe : p = "B/best_football_predictor.h5"
      · subst hpe
        exact absurd (by decide) hp
      · simp [fsEmpty, fsMatchOnly, hpe])
    Feature.league (by decide)

end FootballApp
